import Mathlib

/-!
Verification of the ID-mask graph compiler in `shader_tools/id_system.py`.

The Python module synthesizes Blender shader node graphs.  We embed the
graph-building code shallowly: a scalar node expression type `Expr` stands for
the Math/Value node networks produced by `build_channel_value`, and the
builders (`compute_id_ranges`, `build_id_core_group`, the color and normal mix
chain operators) are translated as Lean functions over that type.  Evaluation
of an `Expr` under an assignment of the 16 mask inputs gives the semantics of
the emitted graph.  Spec-side definitions (the override fold `specCompose`,
the spec preset table, the spec channel-assignment formula) are written
separately from the sentences of the design document and compared with the
code-side definitions by theorem.
-/

namespace T8IdSystem

/-- The four channels R, G, B, A (source comment: Global ID layout). -/
inductive Chan : Type where
  | R : Chan
  | G : Chan
  | B : Chan
  | A : Chan
deriving DecidableEq, Repr

/-- `ID_CHANNEL_MAP` from `id_system.py`: the literal 16-entry dict mapping an
identifier to its (channel, slot); a lookup of any other key raises, which we
model as `none`. -/
def ID_CHANNEL_MAP : ℕ → Option (Chan × ℕ)
  | 1 => some (Chan.R, 1)
  | 2 => some (Chan.R, 2)
  | 3 => some (Chan.R, 3)
  | 4 => some (Chan.R, 4)
  | 5 => some (Chan.G, 1)
  | 6 => some (Chan.G, 2)
  | 7 => some (Chan.G, 3)
  | 8 => some (Chan.G, 4)
  | 9 => some (Chan.B, 1)
  | 10 => some (Chan.B, 2)
  | 11 => some (Chan.B, 3)
  | 12 => some (Chan.B, 4)
  | 13 => some (Chan.A, 1)
  | 14 => some (Chan.A, 2)
  | 15 => some (Chan.A, 3)
  | 16 => some (Chan.A, 4)
  | _ => none

/-- `ID_RANGE_PRESETS` from `id_system.py`: dict from per-channel count of used
identifiers to the list of (low, high) gray-range pairs.  Keys other than 0..4
are absent (`none`). -/
def ID_RANGE_PRESETS : ℕ → Option (List (ℚ × ℚ))
  | 0 => some []
  | 1 => some [(1.0, 1.0)]
  | 2 => some [(0.05, 0.05), (1.0, 1.0)]
  | 3 => some [(0.08, 0.08), (0.397, 0.397), (1.0, 1.0)]
  | 4 => some [(0.05, 0.05), (0.212, 0.212), (0.521, 0.521), (1.0, 1.0)]
  | _ => none

/-- `ID_RANGE_PRESETS.get(count, [])` as used by `compute_id_ranges`: the dict
lookup with an empty-list default. -/
def presetsGet (n : ℕ) : List (ℚ × ℚ) := (ID_RANGE_PRESETS n).getD []

/-- The gray level actually used per preset entry: `build_channel_value` takes
`low` of each (low, high) pair (`gray = low`). -/
def presetFor (n : ℕ) : List ℚ := (presetsGet n).map Prod.fst

/-- The per-material settings `IDSystemMaterialSettings`: sixteen booleans
`id_use_1 .. id_use_16`. -/
structure Config : Type where
  id_use_1 : Bool
  id_use_2 : Bool
  id_use_3 : Bool
  id_use_4 : Bool
  id_use_5 : Bool
  id_use_6 : Bool
  id_use_7 : Bool
  id_use_8 : Bool
  id_use_9 : Bool
  id_use_10 : Bool
  id_use_11 : Bool
  id_use_12 : Bool
  id_use_13 : Bool
  id_use_14 : Bool
  id_use_15 : Bool
  id_use_16 : Bool
deriving DecidableEq, Repr

/-- `getattr(settings, f"id_use_{i}")` for i in 1..16; false elsewhere. -/
def idUse (c : Config) : ℕ → Bool
  | 1 => c.id_use_1
  | 2 => c.id_use_2
  | 3 => c.id_use_3
  | 4 => c.id_use_4
  | 5 => c.id_use_5
  | 6 => c.id_use_6
  | 7 => c.id_use_7
  | 8 => c.id_use_8
  | 9 => c.id_use_9
  | 10 => c.id_use_10
  | 11 => c.id_use_11
  | 12 => c.id_use_12
  | 13 => c.id_use_13
  | 14 => c.id_use_14
  | 15 => c.id_use_15
  | 16 => c.id_use_16
  | _ => false

/-- The per-channel identifier lists used by `compute_id_ranges` and
`build_id_core_group` (the literal lists `[1,2,3,4]`, `[5,6,7,8]`, ...). -/
def channelIds : Chan → List ℕ
  | Chan.R => [1, 2, 3, 4]
  | Chan.G => [5, 6, 7, 8]
  | Chan.B => [9, 10, 11, 12]
  | Chan.A => [13, 14, 15, 16]

/-- One channel's contribution inside `compute_id_ranges`: `used_ids` is the
filtered ascending list, `presets = ID_RANGE_PRESETS.get(count, [])`, and each
used identifier at position `idx` receives `presets[idx]` when `idx` is in
range and `(0.0, 0.0)` otherwise; identifiers not in `used_ids` keep the
initial `(0.0, 0.0)`. -/
def rangeInChannel (c : Config) (ids : List ℕ) (i : ℕ) : ℚ × ℚ :=
  let used := ids.filter (fun j => idUse c j)
  let presets := presetsGet used.length
  match used.findIdx? (fun j => j = i) with
  | some idx => presets.getD idx (0, 0)
  | none => (0, 0)

/-- `compute_id_ranges` from `id_system.py`, as the total function
identifier ↦ (low, high); the dict is initialised to `(0.0, 0.0)` for
identifiers 1..16 and each channel then overwrites its own four keys. -/
def compute_id_ranges (c : Config) (i : ℕ) : ℚ × ℚ :=
  if i ∈ channelIds Chan.R then rangeInChannel c (channelIds Chan.R) i
  else if i ∈ channelIds Chan.G then rangeInChannel c (channelIds Chan.G) i
  else if i ∈ channelIds Chan.B then rangeInChannel c (channelIds Chan.B) i
  else if i ∈ channelIds Chan.A then rangeInChannel c (channelIds Chan.A) i
  else (0, 0)

/-- Scalar node expressions: the Value / Math(SUBTRACT, MULTIPLY, ADD) node
networks `build_channel_value` wires up.  `input i` denotes the group input
socket `IDxx_Mask` for identifier `i`. -/
inductive Expr : Type where
  | const : ℚ → Expr
  | input : ℕ → Expr
  | sub : Expr → Expr → Expr
  | mul : Expr → Expr → Expr
  | add : Expr → Expr → Expr
deriving DecidableEq, Repr

/-- Evaluation of a scalar node expression under mask-input assignment `m`. -/
def evalExpr (m : ℕ → ℚ) : Expr → ℚ
  | Expr.const q => q
  | Expr.input i => m i
  | Expr.sub a b => evalExpr m a - evalExpr m b
  | Expr.mul a b => evalExpr m a * evalExpr m b
  | Expr.add a b => evalExpr m a + evalExpr m b

/-- One step of `build_channel_value`'s loop: with `gray = ranges[i][0]`,
build `diff = SUBTRACT(gray, prev)`, `mul = MULTIPLY(mask_i, diff)`,
`add = ADD(prev, mul)` and return the `add` output. -/
def chanStep (ranges : ℕ → ℚ × ℚ) (prev : Expr) (i : ℕ) : Expr :=
  Expr.add prev (Expr.mul (Expr.input i) (Expr.sub (Expr.const (ranges i).1) prev))

/-- `build_channel_value` from `build_id_core_group`: filter the channel's
identifiers by their `id_use` flags, start from a Value node at `0.0`, and
fold the Math-node step over the used identifiers in ascending order. -/
def build_channel_value (c : Config) (ranges : ℕ → ℚ × ℚ) (id_indices : List ℕ) : Expr :=
  let used_ids := id_indices.filter (fun i => idUse c i)
  used_ids.foldl (chanStep ranges) (Expr.const 0)

/-- Zero-padding used by the f-string `f"ID{i:02d}_Mask"`. -/
def pad2 (i : ℕ) : String := if i < 10 then "0" ++ toString i else toString i

/-- Socket name `IDxx_Mask` for identifier `i`. -/
def maskSocketName (i : ℕ) : String := "ID" ++ pad2 i ++ "_Mask"

/-- The identifier range `range(1, 17)`. -/
def ids16 : List ℕ := [1, 2, 3, 4, 5, 6, 7, 8, 9, 10, 11, 12, 13, 14, 15, 16]

/-- The 16 mask socket names in identifier order. -/
def maskNames : List String := ids16.map maskSocketName

/-- The core node group emitted by `build_id_core_group`: the interface socket
names, the pass-through links, and the expressions feeding the CombineRGB
components and the Alpha output. -/
structure CoreGraph : Type where
  inputs : List String
  outputs : List String
  passThrough : List (String × Expr)
  rgbR : Expr
  rgbG : Expr
  rgbB : Expr
  alphaOut : Expr
deriving DecidableEq, Repr

/-- `build_id_core_group` for a fresh group (`is_new` true): declare the
interface (outputs `RGB_ID`, `Alpha_ID`, then the 16 `IDxx_Mask` outputs;
inputs the 16 `IDxx_Mask` masks), link each mask input straight to its
pass-through output, build the four channel values, and wire CombineRGB from
the R, G, B values with the A value on `Alpha_ID`. -/
def build_id_core_group (c : Config) : CoreGraph :=
  let ranges := compute_id_ranges c
  { inputs := maskNames
    outputs := "RGB_ID" :: "Alpha_ID" :: maskNames
    passThrough := ids16.map (fun i => (maskSocketName i, Expr.input i))
    rgbR := build_channel_value c ranges [1, 2, 3, 4]
    rgbG := build_channel_value c ranges [5, 6, 7, 8]
    rgbB := build_channel_value c ranges [9, 10, 11, 12]
    alphaOut := build_channel_value c ranges [13, 14, 15, 16] }

/-- Rebuild semantics of `build_id_core_group`: when the group already exists
(`is_new` false) its interface is kept and only the internal nodes and links
are cleared and regenerated; when it is new the interface is declared too. -/
def rebuild (existing : Option CoreGraph) (c : Config) : CoreGraph :=
  match existing with
  | none => build_id_core_group c
  | some g =>
      { build_id_core_group c with inputs := g.inputs, outputs := g.outputs }

/-- Select a channel's composed expression from the emitted core. -/
def chanExpr (g : CoreGraph) : Chan → Expr
  | Chan.R => g.rgbR
  | Chan.G => g.rgbG
  | Chan.B => g.rgbB
  | Chan.A => g.alphaOut

/-! ## Spec-side definitions

These are written from the design document's sentences, to be compared with
the code-side definitions above by theorem. -/

/-- Spec: `lerp(a,b,t) = a + t*(b-a)`. -/
def lerp (a b t : ℚ) : ℚ := a + t * (b - a)

/-- Spec: the channel's active identifiers in ascending identifier order. -/
def specActiveIds (c : Config) (ch : Chan) : List ℕ :=
  (channelIds ch).filter (fun i => idUse c i)

/-- Spec: `presetFor(n)` with the fixed constants n=1: [1.0]; n=2: [0.05, 1.0];
n=3: [0.08, 0.397, 1.0]; n=4: [0.05, 0.212, 0.521, 1.0]; `presetFor(0) = []`. -/
def specPresetFor : ℕ → List ℚ
  | 0 => []
  | 1 => [1.0]
  | 2 => [0.05, 1.0]
  | 3 => [0.08, 0.397, 1.0]
  | 4 => [0.05, 0.212, 0.521, 1.0]
  | _ => []

/-- Spec: `rank(id)` is the identifier's 0-indexed position among the
channel's active identifiers in ascending order. -/
def specRank (c : Config) (ch : Chan) (i : ℕ) : ℕ :=
  ((specActiveIds c ch).findIdx? (fun j => j = i)).getD 0

/-- Spec: `grayOf(id) = presetFor(count)[rank(id)]` where `count` is the
channel's active-identifier count. -/
def specGrayOf (c : Config) (ch : Chan) (i : ℕ) : ℚ :=
  (specPresetFor (specActiveIds c ch).length).getD (specRank c ch i) 0

/-- Spec: the override fold — `v = 0.0; for (id, mask) in orderedActive:
v = lerp(v, grayOf(id), mask)`. -/
def specCompose (c : Config) (ch : Chan) (m : ℕ → ℚ) : ℚ :=
  (specActiveIds c ch).foldl (fun v i => lerp v (specGrayOf c ch i) (m i)) 0

/-- Spec: ChannelAssignment(id) = (channel = enum at position `(id-1)/4` of
(R,G,B,A), slot = `(id-1) % 4 + 1`), total on 1..16, undefined outside. -/
def specChanAssign (id : ℕ) : Option (Chan × ℕ) :=
  if 1 ≤ id ∧ id ≤ 16 then
    ([Chan.R, Chan.G, Chan.B, Chan.A].get? ((id - 1) / 4)).map
      (fun ch => (ch, (id - 1) % 4 + 1))
  else none

/-! ## Color mix chain (`IDS_OT_AddIDMixColor.execute`) -/

/-- RGBA-ish color / vector values carried on color sockets; the alpha
component plays no role in the mix math, so a 3-component value suffices. -/
abbrev Vec3 : Type := ℚ × ℚ × ℚ

/-- Componentwise linear interpolation: the semantics of a MixRGB node with
blend type MIX (`Fac` = `t`, `Color1` = `a`, `Color2` = `b`). -/
def lerp3 (a b : Vec3) (t : ℚ) : Vec3 :=
  (lerp a.1 b.1 t, lerp a.2.1 b.2.1 t, lerp a.2.2 b.2.2 t)

/-- Color node expressions built by the color mix operator: the `Base` input,
a `Color_IDxx` input, or a MixRGB node whose factor is the `Mask_IDxx` input
for identifier `i`. -/
inductive CExpr : Type where
  | base : CExpr
  | colorIn : ℕ → CExpr
  | mixNode : ℕ → CExpr → CExpr → CExpr
deriving DecidableEq, Repr

/-- Evaluation of a color expression under a base color, per-identifier color
inputs and per-identifier mask inputs. -/
def evalC (b : Vec3) (cols : ℕ → Vec3) (ms : ℕ → ℚ) : CExpr → Vec3
  | CExpr.base => b
  | CExpr.colorIn i => cols i
  | CExpr.mixNode i x y => lerp3 (evalC b cols ms x) (evalC b cols ms y) (ms i)

/-- The mix chain of `IDS_OT_AddIDMixColor.execute`: start from the `Base`
input; for each chosen identifier in caller order add a MixRGB node with
`inputs[1]` = current value, `inputs[2]` = that identifier's color input and
`inputs[0]` (factor) = its mask input; output the last mix result. -/
def build_color_mix (used_ids : List ℕ) : CExpr :=
  used_ids.foldl (fun cur i => CExpr.mixNode i cur (CExpr.colorIn i)) CExpr.base

/-- Spec: `v0 = baseColorInput; v_i = lerp(v_{i-1}, colorInput_i, maskInput_i)`
in caller order; output `v_N`. -/
def specColorChain (b : Vec3) (cols : ℕ → Vec3) (ms : ℕ → ℚ) (ids : List ℕ) : Vec3 :=
  ids.foldl (fun v i => lerp3 v (cols i) (ms i)) b

/-! ## Normal mix chain (`IDS_OT_AddIDMixNormal.execute`) -/

/-- Green-channel inversion built by `build_normal_from_color`: SeparateRGB,
`1 - G` via a SUBTRACT Math node, CombineRGB. -/
def flipG (v : Vec3) : Vec3 := (v.1, 1 - v.2.1, v.2.2)

/-- Normal node expressions.  Identifier `0` stands for the `BaseColor` /
`BaseSpace` inputs; identifiers 1..16 for the per-identifier
`Color_IDxx` / `Space_IDxx` / `Mask_IDxx` inputs.  `nmapRaw i` is a NormalMap
node fed with the raw color input `i` (convention A / OpenGL); `nmapFlip i` is
a NormalMap node fed with the green-inverted color (convention B / DirectX);
`spaceMix` and `maskMix` are MixRGB nodes whose factors are the space and mask
inputs respectively. -/
inductive NExpr : Type where
  | nmapRaw : ℕ → NExpr
  | nmapFlip : ℕ → NExpr
  | spaceMix : ℕ → NExpr → NExpr → NExpr
  | maskMix : ℕ → NExpr → NExpr → NExpr
deriving DecidableEq, Repr

/-- Evaluation of a normal expression; `nmap` is the (opaque) tangent-space
decode performed by the host's NormalMap node. -/
def evalN (nmap : Vec3 → Vec3) (cols : ℕ → Vec3) (spaces masks : ℕ → ℚ) :
    NExpr → Vec3
  | NExpr.nmapRaw i => nmap (cols i)
  | NExpr.nmapFlip i => nmap (flipG (cols i))
  | NExpr.spaceMix i a b =>
      lerp3 (evalN nmap cols spaces masks a) (evalN nmap cols spaces masks b) (spaces i)
  | NExpr.maskMix i a b =>
      lerp3 (evalN nmap cols spaces masks a) (evalN nmap cols spaces masks b) (masks i)

/-- `build_normal_from_color` from the source: decode the raw color (GL), the
green-flipped color (DX), and mix them with the space input as factor
(`inputs[1]` = GL, `inputs[2]` = DX, factor = space; 0 = GL, 1 = DX). -/
def build_normal_from_color (i : ℕ) : NExpr :=
  NExpr.spaceMix i (NExpr.nmapRaw i) (NExpr.nmapFlip i)

/-- The mix chain of `IDS_OT_AddIDMixNormal.execute`: start from the base
normal (`build_normal_from_color` on the base inputs) and fold a MixRGB node
per chosen identifier in caller order, factor = that identifier's mask. -/
def build_normal_mix (used_ids : List ℕ) : NExpr :=
  used_ids.foldl (fun cur i => NExpr.maskMix i cur (build_normal_from_color i))
    (build_normal_from_color 0)

/-! ## Helper lemmas -/

/-- Semantics of the Math-node fold built by `build_channel_value`: evaluating
the folded expression is the numeric fold `v ↦ v + m i * (gray i - v)`. -/
lemma evalExpr_foldl_chanStep (ranges : ℕ → ℚ × ℚ) (m : ℕ → ℚ) :
    ∀ (l : List ℕ) (e : Expr),
      evalExpr m (l.foldl (chanStep ranges) e)
        = l.foldl (fun v i => v + m i * ((ranges i).1 - v)) (evalExpr m e) := by
  intro l
  induction l with
  | nil => intro e; rfl
  | cons a t ih =>
      intro e
      simp only [List.foldl_cons]
      rw [ih]
      simp [chanStep, evalExpr]

/-- Two folds over the same list agree when the step functions agree on the
list's elements. -/
lemma foldl_congr_mem {α β : Type} (l : List α) (f g : β → α → β) (a : β)
    (h : ∀ x ∈ l, ∀ v, f v x = g v x) : l.foldl f a = l.foldl g a := by
  induction l generalizing a with
  | nil => rfl
  | cons x t ih =>
      simp only [List.foldl_cons]
      rw [h x (by simp)]
      exact ih (g a x) (fun y hy v => h y (by simp [hy]) v)

/-- `getD` after `map Prod.fst` with defaults matching componentwise. -/
lemma getD_map_fst (l : List (ℚ × ℚ)) :
    ∀ idx : ℕ, (l.map Prod.fst).getD idx 0 = (l.getD idx (0, 0)).1 := by
  induction l with
  | nil => intro idx; rfl
  | cons x t ih =>
      intro idx
      cases idx with
      | zero => rfl
      | succ k => simpa using ih k

/-- The spec's preset constants coincide with the gray levels the code takes
from `ID_RANGE_PRESETS` (the `low` of each pair), at every count. -/
lemma specPresetFor_eq (n : ℕ) : specPresetFor n = presetFor n := by
  match n with
  | 0 => rfl
  | 1 => rfl
  | 2 => rfl
  | 3 => rfl
  | 4 => rfl
  | n + 5 => rfl

/-- A satisfied predicate in a list gives a `findIdx?` hit. -/
lemma findIdx?_isSome_of_mem {l : List ℕ} {i : ℕ} (h : i ∈ l) :
    (l.findIdx? (fun j => j = i)).isSome := by
  induction l with
  | nil => simp at h
  | cons a t ih =>
      rw [List.findIdx?_cons]
      by_cases ha : a = i
      · simp [ha]
      · have ht : i ∈ t := by
          rcases List.mem_cons.mp h with rfl | ht
          · exact absurd rfl ha
          · exact ht
        simp only [decide_eq_true_eq]
        rw [if_neg ha]
        simpa using ih ht

/-- On an identifier of its own channel, `compute_id_ranges` resolves to that
channel's `rangeInChannel` (the four channel lists are disjoint). -/
lemma compute_id_ranges_mem (c : Config) (ch : Chan) (i : ℕ)
    (hi : i ∈ channelIds ch) :
    compute_id_ranges c i = rangeInChannel c (channelIds ch) i := by
  cases ch <;> simp [channelIds] at hi <;>
    rcases hi with rfl | rfl | rfl | rfl <;>
      simp [compute_id_ranges, channelIds]

/-- The gray level the code assigns to an active identifier equals the spec's
`grayOf`: `presetFor(count)[rank(id)]`. -/
lemma code_gray_eq_spec (c : Config) (ch : Chan) (i : ℕ)
    (hi : i ∈ specActiveIds c ch) :
    (compute_id_ranges c i).1 = specGrayOf c ch i := by
  have hch : i ∈ channelIds ch := List.mem_of_mem_filter hi
  rw [compute_id_ranges_mem c ch i hch]
  unfold rangeInChannel specGrayOf specRank
  have hused : (channelIds ch).filter (fun j => idUse c j) = specActiveIds c ch := rfl
  rw [hused]
  have hsome := findIdx?_isSome_of_mem (l := specActiveIds c ch) (i := i) hi
  obtain ⟨idx, hidx⟩ := Option.isSome_iff_exists.mp hsome
  rw [hidx]
  simp only [Option.getD_some]
  rw [specPresetFor_eq]
  unfold presetFor
  rw [getD_map_fst]
  simp only [hidx]

/-- The composed channel expression of the emitted core is the channel fold of
`build_channel_value` over that channel's identifier list. -/
lemma chanExpr_build (c : Config) (ch : Chan) :
    chanExpr (build_id_core_group c) ch
      = build_channel_value c (compute_id_ranges c) (channelIds ch) := by
  cases ch <;> rfl

/-- Semantics of the emitted core: each channel's expression evaluates to the
spec's override fold `specCompose`. -/
lemma core_channel_eval (c : Config) (ch : Chan) (m : ℕ → ℚ) :
    evalExpr m (chanExpr (build_id_core_group c) ch) = specCompose c ch m := by
  rw [chanExpr_build]
  unfold build_channel_value
  rw [evalExpr_foldl_chanStep]
  unfold specCompose
  have hused : (channelIds ch).filter (fun j => idUse c j) = specActiveIds c ch := rfl
  rw [hused]
  show (specActiveIds c ch).foldl _ 0 = _
  apply foldl_congr_mem
  intro i hi v
  rw [code_gray_eq_spec c ch i hi]
  unfold lerp
  ring

/-- A `getD` result satisfies any property satisfied by the list's elements
and by the default. -/
lemma getD_satisfies {α : Type} (P : α → Prop) :
    ∀ (l : List α) (idx : ℕ) (d : α), (∀ x ∈ l, P x) → P d → P (l.getD idx d) := by
  intro l
  induction l with
  | nil => intro idx d _ hd; simp [List.getD]; exact hd
  | cons a t ih =>
      intro idx d hl hd
      cases idx with
      | zero => simpa [List.getD] using hl a (by simp)
      | succ k =>
          simp only [List.getD_cons_succ]
          exact ih k d (fun x hx => hl x (by simp [hx])) hd

/-- Every gray level stored in the preset table lies in `[0, 1]`. -/
lemma presetsGet_fst_bounds (n : ℕ) :
    ∀ x ∈ presetsGet n, 0 ≤ x.1 ∧ x.1 ≤ 1 := by
  match n with
  | 0 => intro x hx; simp [presetsGet, ID_RANGE_PRESETS] at hx
  | 1 =>
      intro x hx
      simp [presetsGet, ID_RANGE_PRESETS] at hx
      rw [hx]; norm_num
  | 2 =>
      intro x hx
      simp [presetsGet, ID_RANGE_PRESETS] at hx
      rcases hx with h | h <;> rw [h] <;> norm_num
  | 3 =>
      intro x hx
      simp [presetsGet, ID_RANGE_PRESETS] at hx
      rcases hx with h | h | h <;> rw [h] <;> norm_num
  | 4 =>
      intro x hx
      simp [presetsGet, ID_RANGE_PRESETS] at hx
      rcases hx with h | h | h | h <;> rw [h] <;> norm_num
  | n + 5 => intro x hx; simp [presetsGet, ID_RANGE_PRESETS] at hx

/-- The gray level a channel assigns to any identifier lies in `[0, 1]`. -/
lemma rangeInChannel_fst_bounds (c : Config) (ids : List ℕ) (i : ℕ) :
    0 ≤ (rangeInChannel c ids i).1 ∧ (rangeInChannel c ids i).1 ≤ 1 := by
  unfold rangeInChannel
  rcases hfi : (ids.filter (fun j => idUse c j)).findIdx? (fun j => j = i) with _ | idx
  · simp [hfi]
  · simp only [hfi]
    exact getD_satisfies (fun x => 0 ≤ x.1 ∧ x.1 ≤ 1) _ idx (0, 0)
      (presetsGet_fst_bounds _) (by norm_num)

/-- `compute_id_ranges` only produces gray levels in `[0, 1]`. -/
lemma compute_id_ranges_fst_bounds (c : Config) (i : ℕ) :
    0 ≤ (compute_id_ranges c i).1 ∧ (compute_id_ranges c i).1 ≤ 1 := by
  unfold compute_id_ranges
  split_ifs <;> first | exact rangeInChannel_fst_bounds c _ i | norm_num

/-- The override fold stays in `[0, 1]` when it starts there, the grays are in
`[0, 1]` and every mask is in `[0, 1]`: each step is a convex combination. -/
lemma fold_lerp_bounds (g : ℕ → ℚ) (m : ℕ → ℚ) (hm : ∀ i, 0 ≤ m i ∧ m i ≤ 1) :
    ∀ (l : List ℕ) (v : ℚ), (∀ i ∈ l, 0 ≤ g i ∧ g i ≤ 1) → 0 ≤ v → v ≤ 1 →
      0 ≤ l.foldl (fun v i => v + m i * (g i - v)) v ∧
        l.foldl (fun v i => v + m i * (g i - v)) v ≤ 1 := by
  intro l
  induction l with
  | nil => intro v _ h0 h1; exact ⟨h0, h1⟩
  | cons a t ih =>
      intro v hg h0 h1
      simp only [List.foldl_cons]
      have hga := hg a (by simp)
      have hma := hm a
      apply ih
      · exact fun i hi => hg i (by simp [hi])
      · nlinarith [mul_nonneg (sub_nonneg.mpr hma.2) h0, mul_nonneg hma.1 hga.1]
      · nlinarith [mul_nonneg (sub_nonneg.mpr hma.2) (sub_nonneg.mpr h1),
          mul_nonneg hma.1 (sub_nonneg.mpr hga.2)]

/-- `specCompose` is local to its channel: it depends only on the channel's
own flags and mask values. -/
lemma specCompose_local (c1 c2 : Config) (ch : Chan) (m1 m2 : ℕ → ℚ)
    (hflag : ∀ i ∈ channelIds ch, idUse c1 i = idUse c2 i)
    (hmask : ∀ i ∈ channelIds ch, m1 i = m2 i) :
    specCompose c1 ch m1 = specCompose c2 ch m2 := by
  have hact : specActiveIds c1 ch = specActiveIds c2 ch := by
    unfold specActiveIds
    exact List.filter_congr (fun x hx => by rw [hflag x hx])
  have hgray : ∀ i, specGrayOf c1 ch i = specGrayOf c2 ch i := by
    intro i
    unfold specGrayOf specRank
    rw [hact]
  unfold specCompose
  rw [hact]
  apply foldl_congr_mem
  intro i hi v
  rw [hgray i, hmask i (List.mem_of_mem_filter hi)]

/-- Semantics of the color mix chain: evaluating the built MixRGB chain is the
spec's lerp fold, for every caller-ordered identifier list. -/
lemma evalC_build_color (b : Vec3) (cols : ℕ → Vec3) (ms : ℕ → ℚ) :
    ∀ (ids : List ℕ), evalC b cols ms (build_color_mix ids) = specColorChain b cols ms ids := by
  have key : ∀ (ids : List ℕ) (e : CExpr),
      evalC b cols ms (ids.foldl (fun cur i => CExpr.mixNode i cur (CExpr.colorIn i)) e)
        = ids.foldl (fun v i => lerp3 v (cols i) (ms i)) (evalC b cols ms e) := by
    intro ids
    induction ids with
    | nil => intro e; rfl
    | cons a t ih =>
        intro e
        simp only [List.foldl_cons]
        rw [ih]
        rfl
  intro ids
  exact key ids CExpr.base

/-- A MixRGB node with factor 0 passes its first input through exactly. -/
lemma lerp3_zero (a b : Vec3) : lerp3 a b 0 = a := by
  unfold lerp3 lerp
  simp

/-- With every space selector at 0, the normal mix chain evaluates identically
under any two NormalMap decodes that agree on the raw (convention-A) color
inputs, however much they differ on the green-inverted (convention-B) ones. -/
lemma evalN_chain_congr (cols : ℕ → Vec3) (spaces masks : ℕ → ℚ)
    (nmap1 nmap2 : Vec3 → Vec3)
    (hs : ∀ i, spaces i = 0) (hn : ∀ i, nmap1 (cols i) = nmap2 (cols i)) :
    ∀ (ids : List ℕ) (e : NExpr),
      evalN nmap1 cols spaces masks e = evalN nmap2 cols spaces masks e →
      evalN nmap1 cols spaces masks
          (ids.foldl (fun cur i => NExpr.maskMix i cur (build_normal_from_color i)) e)
        = evalN nmap2 cols spaces masks
            (ids.foldl (fun cur i => NExpr.maskMix i cur (build_normal_from_color i)) e) := by
  intro ids
  induction ids with
  | nil => intro e he; exact he
  | cons a t ih =>
      intro e he
      simp only [List.foldl_cons]
      apply ih
      show evalN nmap1 cols spaces masks (NExpr.maskMix a e (build_normal_from_color a)) = _
      simp [evalN, build_normal_from_color, hs a, lerp3_zero, he, hn a]

/-- Base case of the normal chain congruence: the base normal is decoded from
the raw base color only, when the base space selector is 0. -/
lemma evalN_base_congr (cols : ℕ → Vec3) (spaces masks : ℕ → ℚ)
    (nmap1 nmap2 : Vec3 → Vec3)
    (hs : ∀ i, spaces i = 0) (hn : ∀ i, nmap1 (cols i) = nmap2 (cols i)) :
    evalN nmap1 cols spaces masks (build_normal_from_color 0)
      = evalN nmap2 cols spaces masks (build_normal_from_color 0) := by
  simp [evalN, build_normal_from_color, hs 0, lerp3_zero, hn 0]

/-! ## Concrete configurations used by witnesses -/

/-- The configuration with no identifier active (all flags default False). -/
def cfg0 : Config :=
  ⟨false, false, false, false, false, false, false, false,
   false, false, false, false, false, false, false, false⟩

/-- The configuration with every identifier active. -/
def cfgAll : Config :=
  ⟨true, true, true, true, true, true, true, true,
   true, true, true, true, true, true, true, true⟩

/-- A configuration active everywhere except the red channel. -/
def cfgOthers : Config :=
  ⟨false, false, false, false, true, true, true, true,
   true, true, true, true, true, true, true, true⟩

/-! ## Claims -/

/-- Claim C1: for every channel, the composed channel value of the emitted
core equals the override fold — starting from 0.0, each active identifier in
ascending order updates `v` to `lerp(v, grayOf(id), mask)` with
`grayOf(id) = presetFor(count)[rank(id)]`; with no active identifiers the
composed value is 0.0. -/
theorem claim_C1 : ∀ (c : Config) (ch : Chan) (m : ℕ → ℚ),
    evalExpr m (chanExpr (build_id_core_group c) ch) = specCompose c ch m ∧
    (specActiveIds c ch = [] → evalExpr m (chanExpr (build_id_core_group c) ch) = 0) := by
  intro c ch m
  refine ⟨core_channel_eval c ch m, fun h => ?_⟩
  rw [core_channel_eval c ch m]
  unfold specCompose
  rw [h]
  rfl

/-- Witness for C1: with no identifier active, the red channel composes to 0. -/
theorem claim_C1_witness :
    evalExpr (fun _ => 1) (chanExpr (build_id_core_group cfg0) Chan.R) = 0 :=
  (claim_C1 cfg0 Chan.R (fun _ => 1)).2 (by decide)

/-- Claim C2: after a rebuild from any configuration the emitted core exposes
exactly the 16 mask inputs (active or not), the 16 pass-through outputs each
carrying the corresponding input verbatim, one 3-component output carrying
(compose R, compose G, compose B) and one scalar output carrying compose A. -/
theorem claim_C2 : ∀ c : Config,
    (build_id_core_group c).inputs =
      ["ID01_Mask", "ID02_Mask", "ID03_Mask", "ID04_Mask",
       "ID05_Mask", "ID06_Mask", "ID07_Mask", "ID08_Mask",
       "ID09_Mask", "ID10_Mask", "ID11_Mask", "ID12_Mask",
       "ID13_Mask", "ID14_Mask", "ID15_Mask", "ID16_Mask"] ∧
    (build_id_core_group c).outputs = "RGB_ID" :: "Alpha_ID" ::
      ["ID01_Mask", "ID02_Mask", "ID03_Mask", "ID04_Mask",
       "ID05_Mask", "ID06_Mask", "ID07_Mask", "ID08_Mask",
       "ID09_Mask", "ID10_Mask", "ID11_Mask", "ID12_Mask",
       "ID13_Mask", "ID14_Mask", "ID15_Mask", "ID16_Mask"] ∧
    (build_id_core_group c).passThrough =
      [("ID01_Mask", Expr.input 1), ("ID02_Mask", Expr.input 2),
       ("ID03_Mask", Expr.input 3), ("ID04_Mask", Expr.input 4),
       ("ID05_Mask", Expr.input 5), ("ID06_Mask", Expr.input 6),
       ("ID07_Mask", Expr.input 7), ("ID08_Mask", Expr.input 8),
       ("ID09_Mask", Expr.input 9), ("ID10_Mask", Expr.input 10),
       ("ID11_Mask", Expr.input 11), ("ID12_Mask", Expr.input 12),
       ("ID13_Mask", Expr.input 13), ("ID14_Mask", Expr.input 14),
       ("ID15_Mask", Expr.input 15), ("ID16_Mask", Expr.input 16)] ∧
    ∀ m : ℕ → ℚ,
      evalExpr m (build_id_core_group c).rgbR = specCompose c Chan.R m ∧
      evalExpr m (build_id_core_group c).rgbG = specCompose c Chan.G m ∧
      evalExpr m (build_id_core_group c).rgbB = specCompose c Chan.B m ∧
      evalExpr m (build_id_core_group c).alphaOut = specCompose c Chan.A m := by
  intro c
  exact ⟨rfl, rfl, rfl,
    fun m => ⟨core_channel_eval c Chan.R m, core_channel_eval c Chan.G m,
      core_channel_eval c Chan.B m, core_channel_eval c Chan.A m⟩⟩

/-- Claim C3: rebuilding twice with an identical configuration is idempotent —
the second rebuild (which keeps the existing interface and regenerates the
internal nodes) has the same socket sets (16 inputs, 18 outputs) and the same
composed-value semantics as the first. -/
theorem claim_C3 : ∀ c : Config,
    (rebuild (some (rebuild none c)) c).inputs = (rebuild none c).inputs ∧
    (rebuild (some (rebuild none c)) c).outputs = (rebuild none c).outputs ∧
    (rebuild none c).inputs.length = 16 ∧
    (rebuild none c).outputs.length = 18 ∧
    ∀ (ch : Chan) (m : ℕ → ℚ),
      evalExpr m (chanExpr (rebuild (some (rebuild none c)) c) ch)
        = evalExpr m (chanExpr (rebuild none c) ch) := by
  intro c
  refine ⟨rfl, rfl, rfl, rfl, fun ch m => ?_⟩
  cases ch <;> rfl

/-- Claim C4 counterexample: at a count of 5 the code's preset lookup
(`ID_RANGE_PRESETS.get(count, [])`) yields the empty list, not the claimed
clamp to `presetFor(4)`. -/
theorem claim_C4_cex :
    presetsGet 5 = [] ∧ (presetsGet 5 = presetsGet 4) = False :=
  ⟨rfl, eq_false (by decide)⟩

/-- Claim C4 (amended): if a channel's active-identifier count were above 4,
the preset lookup falls back to the empty preset list (every identifier of the
channel then gets gray range (0.0, 0.0)); no UnknownPresetCount condition
exists in the code, and the operation does not fail.  Moreover the count can
in fact never exceed 4. -/
theorem claim_C4_amended :
    (∀ n : ℕ, 4 < n → presetsGet n = []) ∧
    (∀ (c : Config) (ch : Chan),
      ((channelIds ch).filter (fun i => idUse c i)).length ≤ 4) := by
  constructor
  · intro n hn
    match n, hn with
    | n + 5, _ => rfl
  · intro c ch
    calc ((channelIds ch).filter (fun i => idUse c i)).length
        ≤ (channelIds ch).length := List.length_filter_le _ _
      _ ≤ 4 := by cases ch <;> rfl

/-- Witness for the amended C4: the lookup at count 7 gives the empty list. -/
theorem claim_C4_witness : presetsGet 7 = [] :=
  claim_C4_amended.1 7 (by decide)

/-- Claim C5: for n in 1..4 the gray preset list has exactly n entries, is
strictly ascending and ends in 1.0; the count-0 preset is empty; and the
constants are exactly those of `ID_RANGE_PRESETS`. -/
theorem claim_C5 :
    (∀ n ∈ ([1, 2, 3, 4] : List ℕ),
      (presetFor n).length = n ∧ List.Chain' (· < ·) (presetFor n) ∧
        (presetFor n).getLast? = some 1.0) ∧
    presetFor 0 = [] ∧
    presetFor 1 = [1.0] ∧
    presetFor 2 = [0.05, 1.0] ∧
    presetFor 3 = [0.08, 0.397, 1.0] ∧
    presetFor 4 = [0.05, 0.212, 0.521, 1.0] := by
  refine ⟨?_, rfl, rfl, rfl, rfl, rfl⟩
  intro n hn
  fin_cases hn <;>
    exact ⟨rfl, by norm_num [presetFor, presetsGet, ID_RANGE_PRESETS], rfl⟩

/-- Witness for C5 at n = 2. -/
theorem claim_C5_witness :
    (presetFor 2).length = 2 ∧ List.Chain' (· < ·) (presetFor 2) ∧
      (presetFor 2).getLast? = some 1.0 :=
  claim_C5.1 2 (by decide)

/-- Claim C6: the channel assignment table maps each identifier 1..16 to
(channel at position (id-1)/4 of (R,G,B,A), slot (id-1) % 4 + 1) and is
undefined outside 1..16. -/
theorem claim_C6 : ∀ id : ℕ, ID_CHANNEL_MAP id = specChanAssign id := by
  intro id
  rcases Nat.lt_or_ge id 17 with h | h
  · interval_cases id <;> decide
  · obtain ⟨k, rfl⟩ : ∃ k, id = k + 17 := ⟨id - 17, by omega⟩
    have h1 : ID_CHANNEL_MAP (k + 17) = none := rfl
    have h2 : specChanAssign (k + 17) = none := by
      have hk : ¬(1 ≤ k + 17 ∧ k + 17 ≤ 16) := by omega
      simp [specChanAssign, hk]
    rw [h1, h2]

/-- Claim C7: the color mix chain for a caller-ordered list of 1..4 entries
computes the lerp fold `v_i = lerp(v_{i-1}, color_i, mask_i)` from the base
color, in caller order; with exactly one entry it is `lerp(base, c1, m1)`. -/
theorem claim_C7 :
    (∀ (ids : List ℕ) (b : Vec3) (cols : ℕ → Vec3) (ms : ℕ → ℚ),
      1 ≤ ids.length → ids.length ≤ 4 →
      evalC b cols ms (build_color_mix ids) = specColorChain b cols ms ids) ∧
    (∀ (i : ℕ) (b : Vec3) (cols : ℕ → Vec3) (ms : ℕ → ℚ),
      evalC b cols ms (build_color_mix [i]) = lerp3 b (cols i) (ms i)) := by
  constructor
  · intro ids b cols ms _ _
    exact evalC_build_color b cols ms ids
  · intro i b cols ms
    rfl

/-- Witness for C7 on the two-entry chain [2, 7]. -/
theorem claim_C7_witness :
    evalC ((0 : ℚ), (0 : ℚ), (0 : ℚ)) (fun _ => (1, 0, 0)) (fun _ => 1)
        (build_color_mix [2, 7])
      = specColorChain (0, 0, 0) (fun _ => (1, 0, 0)) (fun _ => 1) [2, 7] :=
  claim_C7.1 [2, 7] (0, 0, 0) (fun _ => (1, 0, 0)) (fun _ => 1)
    (by decide) (by decide)

/-- Claim C8: with the space selector at 0 for the base and every entry, the
normal mix chain's output is exactly independent of the convention-B
(green-inverted) decode: two NormalMap decodes that agree on the raw color
inputs but may differ arbitrarily on the green-inverted ones give identical
chain outputs. -/
theorem claim_C8 : ∀ (ids : List ℕ) (cols : ℕ → Vec3) (spaces masks : ℕ → ℚ)
    (nmap1 nmap2 : Vec3 → Vec3),
    (∀ i, spaces i = 0) →
    (∀ i, nmap1 (cols i) = nmap2 (cols i)) →
    evalN nmap1 cols spaces masks (build_normal_mix ids)
      = evalN nmap2 cols spaces masks (build_normal_mix ids) := by
  intro ids cols spaces masks nmap1 nmap2 hs hn
  unfold build_normal_mix
  exact evalN_chain_congr cols spaces masks nmap1 nmap2 hs hn ids _
    (evalN_base_congr cols spaces masks nmap1 nmap2 hs hn)

/-- Witness for C8: two decodes agreeing on the raw color (0,0,0) but
differing on its green-inverted image (0,1,0) give the same chain output. -/
theorem claim_C8_witness :
    evalN (fun v => (v.2.1, v.2.1, v.2.1)) (fun _ => ((0 : ℚ), (0 : ℚ), (0 : ℚ)))
        (fun _ => 0) (fun _ => 1) (build_normal_mix [1])
      = evalN (fun v => v) (fun _ => (0, 0, 0)) (fun _ => 0) (fun _ => 1)
          (build_normal_mix [1]) :=
  claim_C8 [1] (fun _ => (0, 0, 0)) (fun _ => 0) (fun _ => 1)
    (fun v => (v.2.1, v.2.1, v.2.1)) (fun v => v) (fun _ => rfl) (fun _ => rfl)

/-- Claim C9: with all mask inputs in [0,1], each composed channel value of
the emitted core lies in [0,1]: the fold starts at 0 and each step is a convex
combination of the accumulated value and a gray preset in [0,1]. -/
theorem claim_C9 : ∀ (c : Config) (m : ℕ → ℚ),
    (∀ i, 0 ≤ m i ∧ m i ≤ 1) →
    ∀ ch : Chan,
      0 ≤ evalExpr m (chanExpr (build_id_core_group c) ch) ∧
        evalExpr m (chanExpr (build_id_core_group c) ch) ≤ 1 := by
  intro c m hm ch
  rw [chanExpr_build]
  unfold build_channel_value
  rw [evalExpr_foldl_chanStep]
  exact fold_lerp_bounds (fun i => (compute_id_ranges c i).1) m hm _ _
    (fun i _ => compute_id_ranges_fst_bounds c i)
    (by norm_num [evalExpr]) (by norm_num [evalExpr])

/-- Witness for C9: all identifiers active, all masks 1, red channel. -/
theorem claim_C9_witness :
    0 ≤ evalExpr (fun _ => 1) (chanExpr (build_id_core_group cfgAll) Chan.R) ∧
      evalExpr (fun _ => 1) (chanExpr (build_id_core_group cfgAll) Chan.R) ≤ 1 :=
  claim_C9 cfgAll (fun _ => 1) (fun _ => ⟨zero_le_one, le_refl 1⟩) Chan.R

/-- Claim C10: a channel's composed value depends only on the flags and mask
values of that channel's own four identifiers: two configurations and mask
assignments agreeing there compose identically on that channel. -/
theorem claim_C10 : ∀ (c1 c2 : Config) (m1 m2 : ℕ → ℚ) (ch : Chan),
    (∀ i ∈ channelIds ch, idUse c1 i = idUse c2 i) →
    (∀ i ∈ channelIds ch, m1 i = m2 i) →
    evalExpr m1 (chanExpr (build_id_core_group c1) ch)
      = evalExpr m2 (chanExpr (build_id_core_group c2) ch) := by
  intro c1 c2 m1 m2 ch hflag hmask
  rw [core_channel_eval, core_channel_eval]
  exact specCompose_local c1 c2 ch m1 m2 hflag hmask

/-- Witness for C10: the red channel composes identically under the
all-inactive configuration and the configuration active everywhere outside
the red channel. -/
theorem claim_C10_witness :
    evalExpr (fun _ => 1) (chanExpr (build_id_core_group cfg0) Chan.R)
      = evalExpr (fun _ => 1) (chanExpr (build_id_core_group cfgOthers) Chan.R) :=
  claim_C10 cfg0 cfgOthers (fun _ => 1) (fun _ => 1) Chan.R
    (by decide) (fun i _ => rfl)

end T8IdSystem
